import Mathlib

/-!
# qcodespp sweep-loop engine: verification of the specification

The repository ships the loop engine (`loop1d`, `loop2d`, `loop2dUD`,
`ScaledParameter`, `BreakIf`) as a library whose callers and run traces are in
`qcodespp_template.ipynb`; the engine's own source is not part of the file set,
so every engine definition below is modelled from the specification
(`spec.md`), faithful to its words, and cross-checked against the dataset
shapes and prompts recorded in the notebook traces.

Values are modelled as rationals; wall-clock time as a rational clock advanced
by the settle delay plus a per-step duration supplied by the environment.
-/

/-- Modelled from the spec: the Setpoint Sequencer (§4.1).  Missing source:
`qcodespp` sweep value generation.  Given `(start, stop, num_points)` it
produces `num_points` evenly spaced values from `start` to `stop` inclusive
(linear interpolation); `num_points == 1` yields `[start]`. -/
def setpoints (start stop : ℚ) (num : ℕ) : List ℚ :=
  if num ≤ 1 then [start]
  else (List.range num).map
    (fun i : ℕ => start + (stop - start) * (i : ℚ) / ((num : ℚ) - 1))

lemma setpoints_length (start stop : ℚ) (num : ℕ) (h : 1 ≤ num) :
    (setpoints start stop num).length = num := by
  unfold setpoints
  split
  · simp only [List.length_cons, List.length_nil]
    omega
  · rw [List.length_map, List.length_range]

lemma setpoints_getD (start stop : ℚ) (num i : ℕ) (hn : 2 ≤ num) (hi : i < num) :
    (setpoints start stop num).getD i 0
      = start + (stop - start) * i / ((num : ℚ) - 1) := by
  unfold setpoints
  rw [if_neg (by omega)]
  have hlen : i < ((List.range num).map
      (fun i : ℕ => start + (stop - start) * (i : ℚ) / ((num : ℚ) - 1))).length := by
    rw [List.length_map, List.length_range]; exact hi
  rw [List.getD_eq_getElem _ _ hlen, List.getElem_map, List.getElem_range]

/-- C1: for `num_points ≥ 2` the Setpoint Sequencer produces exactly
`num_points` values, the first equal to `start`, the last equal to `stop`
exactly, with consecutive values spaced by `(stop-start)/(num_points-1)`;
for `num_points == 1` the sequence is exactly `[start]`. -/
theorem c1_setpoint_sequencer (start stop : ℚ) (num : ℕ) (hn : 2 ≤ num) :
    (setpoints start stop num).length = num ∧
    (setpoints start stop num).getD 0 0 = start ∧
    (setpoints start stop num).getD (num - 1) 0 = stop ∧
    (∀ i, i + 1 < num →
      (setpoints start stop num).getD (i + 1) 0 - (setpoints start stop num).getD i 0
        = (stop - start) / ((num : ℚ) - 1)) ∧
    setpoints start stop 1 = [start] := by
  have hden : ((num : ℚ) - 1) ≠ 0 := by
    have : (2 : ℚ) ≤ (num : ℚ) := by exact_mod_cast hn
    intro h
    nlinarith
  refine ⟨setpoints_length start stop num (by omega), ?_, ?_, ?_, ?_⟩
  · rw [setpoints_getD start stop num 0 hn (by omega)]
    simp
  · rw [setpoints_getD start stop num (num - 1) hn (by omega)]
    have hcast : ((num - 1 : ℕ) : ℚ) = (num : ℚ) - 1 := by
      have : 1 ≤ num := by omega
      push_cast [this]
      ring
    rw [hcast, mul_div_assoc, div_self hden]
    ring
  · intro i hi
    rw [setpoints_getD start stop num (i + 1) hn (by omega),
      setpoints_getD start stop num i hn (by omega)]
    push_cast
    field_simp
    ring
  · unfold setpoints
    simp

/-- C1 witness: the sequencer on `(0, 1, 3)` has length 3, first value 0,
last value 1, spacing `1/2`, and `(0, 1, 1)` yields `[0]`. -/
theorem c1_setpoint_sequencer_witness :
    (setpoints 0 1 3).length = 3 ∧
    (setpoints 0 1 3).getD 0 0 = 0 ∧
    (setpoints 0 1 3).getD 2 0 = 1 ∧
    (setpoints 0 1 3).getD 1 0 - (setpoints 0 1 3).getD 0 0 = (1 - 0) / ((3 : ℚ) - 1) ∧
    setpoints 0 1 1 = [0] := by
  have h := c1_setpoint_sequencer 0 1 3 (by decide)
  exact ⟨h.1, h.2.1, h.2.2.1, h.2.2.2.1 0 (by decide), h.2.2.2.2⟩

/-- Modelled from the spec: one axis of iteration (§3, SweepSpec).  Missing
source: the `qcodespp` sweep/step specification objects; `paramName` stands
for the identity of the swept Parameter. -/
structure SweepSpec where
  paramName : String
  start : ℚ
  stop : ℚ
  num : ℕ
  delay : ℚ
deriving DecidableEq

/-- Modelled from the spec: direction mode of a LoopDescriptor (§3):
`one-way` or `zigzag` (the notebook's `loop2dUD`). -/
inductive DirectionMode where
  | oneWay
  | zigzag
deriving DecidableEq

/-- Modelled from the spec: an ActionItem (§3) is either a measurement of a
named channel or a break condition; the predicate is evaluated on the logical
step index against the mock environment. -/
inductive ActionItem where
  | measurement (name : String)
  | breakCond (pred : ℕ → Bool)

/-- Modelled from the spec: the LoopDescriptor (§3): an inner sweep axis, an
optional outer step axis, a direction mode, the ordered action list, and
labeling metadata. -/
structure LoopDescriptor where
  sweep : SweepSpec
  stepAxis : Option SweepSpec
  mode : DirectionMode
  actions : List ActionItem
  deviceInfo : String
  instrumentInfo : String

/-- The names of the measured channels of a descriptor, in action-list
order. -/
def measuredNames (d : LoopDescriptor) : List String :=
  d.actions.filterMap (fun a =>
    match a with
    | ActionItem.measurement n => some n
    | ActionItem.breakCond _ => none)

/-- Total number of visited coordinates of a run: `outer_num * inner_num`
for 2D, `inner_num` for 1D (§3, Dataset shape). -/
def totalSteps (d : LoopDescriptor) : ℕ :=
  match d.stepAxis with
  | none => d.sweep.num
  | some st => st.num * d.sweep.num

/-- Modelled from the spec: the mock hardware environment a run executes
against (§6, Parameter collaborator).  `writeErr t` is the outcome of the
setpoint write at logical step `t` (`some reason` = InstrumentError),
`measure n t` the outcome of reading channel `n` at step `t`, and `stepDur t`
the wall-clock duration of step `t` beyond the programmed settle delay. -/
structure StepEnv where
  writeErr : ℕ → Option String
  measure : String → ℕ → Except String ℚ
  stepDur : ℕ → ℚ

/-- Result of evaluating the Action List at one step (§4.3): the captured
values in list order, a break request, or an InstrumentError reason. -/
inductive ActResult where
  | vals (l : List ℚ)
  | brk
  | err (reason : String)
deriving DecidableEq

/-- Modelled from the spec: the Step Executor's action-list evaluation (§4.3).
Actions run in list order; a `Measurement` reads its parameter, a
`BreakCondition` evaluates its predicate with no dataset side effects and, if
true, reports "break requested"; an `InstrumentError` propagates
immediately. -/
def execActions (env : StepEnv) (t : ℕ) : List ActionItem → ActResult
  | [] => ActResult.vals []
  | ActionItem.measurement n :: rest =>
    match env.measure n t with
    | Except.error r => ActResult.err r
    | Except.ok v =>
      match execActions env t rest with
      | ActResult.vals l => ActResult.vals (v :: l)
      | other => other
  | ActionItem.breakCond p :: rest =>
    if p t then ActResult.brk else execActions env t rest

/-- Outcome of one visit by the Step Executor (§4.3): recorded values, a
break request, or a fatal InstrumentError. -/
inductive StepOutcome where
  | recorded (vals : List ℚ)
  | breakRequested
  | failed (reason : String)
deriving DecidableEq

/-- Whether a step outcome is a successfully recorded row. -/
def StepOutcome.isRecorded : StepOutcome → Bool
  | StepOutcome.recorded _ => true
  | _ => false

/-- Modelled from the spec: one visit (§4.3): write the sweep parameter
(may raise InstrumentError), then evaluate the Action List in order. -/
def stepOutcome (env : StepEnv) (d : LoopDescriptor) (t : ℕ) : StepOutcome :=
  match env.writeErr t with
  | some r => StepOutcome.failed r
  | none =>
    match execActions env t d.actions with
    | ActResult.err r => StepOutcome.failed r
    | ActResult.brk => StepOutcome.breakRequested
    | ActResult.vals l => StepOutcome.recorded l

/-- One recorded row of the Dataset: the logical step index (position in
traversal order), the implicit timer channel value (elapsed seconds since
loop start), and the measured values in action-list order. -/
structure Row where
  step : ℕ
  timer : ℚ
  values : List ℚ
deriving DecidableEq

/-- Terminal status of a run (§4.4): `Completed`, `BrokenEarly`, or
`Aborted` carrying the surfaced error reason. -/
inductive RunOutcome where
  | completed
  | brokenEarly
  | aborted (reason : String)
deriving DecidableEq

/-- A sealed run result: the rows actually written, in traversal order, and
the terminal status.  Sealing is modelled by the run returning this value:
nothing is appended to it afterwards. -/
structure RunResult where
  rows : List Row
  outcome : RunOutcome
deriving DecidableEq

/-- Modelled from the spec: the Loop Controller's iteration (§4.4) from
logical step `t` with the clock at `clock`, for `rem` remaining steps.  Each
step advances the clock by the settle delay plus the step's own duration; a
recorded step appends its row; a break seals the dataset at its fill level
with `brokenEarly` (the outer loop does not continue); an InstrumentError
seals the written prefix with `aborted`. -/
def runFrom (env : StepEnv) (d : LoopDescriptor) : ℕ → ℚ → ℕ → RunResult
  | _, _, 0 => RunResult.mk [] RunOutcome.completed
  | t, clock, rem + 1 =>
    let clock2 := clock + d.sweep.delay + env.stepDur t
    match stepOutcome env d t with
    | StepOutcome.failed r => RunResult.mk [] (RunOutcome.aborted r)
    | StepOutcome.breakRequested => RunResult.mk [] RunOutcome.brokenEarly
    | StepOutcome.recorded l =>
      let rest := runFrom env d (t + 1) clock2 rem
      RunResult.mk (Row.mk t clock2 l :: rest.rows) rest.outcome

/-- Modelled from the spec: a full run (§4.4, `Armed→Running` onwards):
iterate every coordinate of the traversal from step 0, clock 0. -/
def run (env : StepEnv) (d : LoopDescriptor) : RunResult :=
  runFrom env d 0 0 (totalSteps d)

lemma runFrom_all_recorded (env : StepEnv) (d : LoopDescriptor) :
    ∀ rem t clock,
      (∀ u, u < rem → (stepOutcome env d (t + u)).isRecorded = true) →
      (runFrom env d t clock rem).rows.map Row.step = List.range' t rem ∧
        (runFrom env d t clock rem).outcome = RunOutcome.completed := by
  intro rem
  induction rem with
  | zero =>
    intro t clock _
    simp [runFrom]
  | succ n ih =>
    intro t clock h
    have h0 : (stepOutcome env d t).isRecorded = true := by
      simpa using h 0 (Nat.succ_pos n)
    cases hs : stepOutcome env d t with
    | breakRequested => rw [hs] at h0; simp [StepOutcome.isRecorded] at h0
    | failed r => rw [hs] at h0; simp [StepOutcome.isRecorded] at h0
    | recorded l =>
      have hrest := ih (t + 1) (clock + d.sweep.delay + env.stepDur t)
        (fun u hu => by
          have hshift : t + 1 + u = t + (u + 1) := by omega
          rw [hshift]
          exact h (u + 1) (by omega))
      refine ⟨?_, ?_⟩
      · simp only [runFrom, hs, List.map_cons, List.range'_succ]
        rw [hrest.1]
      · simp only [runFrom, hs]
        exact hrest.2

lemma runFrom_break_at (env : StepEnv) (d : LoopDescriptor) :
    ∀ j rem t clock, j < rem →
      (∀ u, u < j → (stepOutcome env d (t + u)).isRecorded = true) →
      stepOutcome env d (t + j) = StepOutcome.breakRequested →
      (runFrom env d t clock rem).rows.map Row.step = List.range' t j ∧
        (runFrom env d t clock rem).outcome = RunOutcome.brokenEarly := by
  intro j
  induction j with
  | zero =>
    intro rem t clock hlt _ hbrk
    obtain ⟨n, rfl⟩ : ∃ n, rem = n + 1 := ⟨rem - 1, by omega⟩
    rw [Nat.add_zero] at hbrk
    simp [runFrom, hbrk]
  | succ j ih =>
    intro rem t clock hlt hrec hbrk
    obtain ⟨n, rfl⟩ : ∃ n, rem = n + 1 := ⟨rem - 1, by omega⟩
    have h0 : (stepOutcome env d t).isRecorded = true := by
      simpa using hrec 0 (by omega)
    cases hs : stepOutcome env d t with
    | breakRequested => rw [hs] at h0; simp [StepOutcome.isRecorded] at h0
    | failed r => rw [hs] at h0; simp [StepOutcome.isRecorded] at h0
    | recorded l =>
      have hrest := ih n (t + 1) (clock + d.sweep.delay + env.stepDur t)
        (by omega)
        (fun u hu => by
          have hshift : t + 1 + u = t + (u + 1) := by omega
          rw [hshift]
          exact hrec (u + 1) (by omega))
        (by
          have hshift : t + 1 + j = t + (j + 1) := by omega
          rw [hshift]
          exact hbrk)
      refine ⟨?_, ?_⟩
      · simp only [runFrom, hs, List.map_cons, List.range'_succ]
        rw [hrest.1]
      · simp only [runFrom, hs]
        exact hrest.2

lemma runFrom_failed_at (env : StepEnv) (d : LoopDescriptor) (r : String) :
    ∀ j rem t clock, j < rem →
      (∀ u, u < j → (stepOutcome env d (t + u)).isRecorded = true) →
      stepOutcome env d (t + j) = StepOutcome.failed r →
      (runFrom env d t clock rem).rows.map Row.step = List.range' t j ∧
        (runFrom env d t clock rem).outcome = RunOutcome.aborted r := by
  intro j
  induction j with
  | zero =>
    intro rem t clock hlt _ hfail
    obtain ⟨n, rfl⟩ : ∃ n, rem = n + 1 := ⟨rem - 1, by omega⟩
    rw [Nat.add_zero] at hfail
    simp [runFrom, hfail]
  | succ j ih =>
    intro rem t clock hlt hrec hfail
    obtain ⟨n, rfl⟩ : ∃ n, rem = n + 1 := ⟨rem - 1, by omega⟩
    have h0 : (stepOutcome env d t).isRecorded = true := by
      simpa using hrec 0 (by omega)
    cases hs : stepOutcome env d t with
    | breakRequested => rw [hs] at h0; simp [StepOutcome.isRecorded] at h0
    | failed r2 => rw [hs] at h0; simp [StepOutcome.isRecorded] at h0
    | recorded l =>
      have hrest := ih n (t + 1) (clock + d.sweep.delay + env.stepDur t)
        (by omega)
        (fun u hu => by
          have hshift : t + 1 + u = t + (u + 1) := by omega
          rw [hshift]
          exact hrec (u + 1) (by omega))
        (by
          have hshift : t + 1 + j = t + (j + 1) := by omega
          rw [hshift]
          exact hfail)
      refine ⟨?_, ?_⟩
      · simp only [runFrom, hs, List.map_cons, List.range'_succ]
        rw [hrest.1]
      · simp only [runFrom, hs]
        exact hrest.2

lemma runFrom_timer_mono (env : StepEnv) (d : LoopDescriptor)
    (hdelay : 0 ≤ d.sweep.delay) (hdur : ∀ t, 0 ≤ env.stepDur t) :
    ∀ rem t clock,
      List.Chain' (· ≤ ·) ((runFrom env d t clock rem).rows.map Row.timer) ∧
      ∀ x ∈ (runFrom env d t clock rem).rows.map Row.timer, clock ≤ x := by
  intro rem
  induction rem with
  | zero =>
    intro t clock
    simp [runFrom]
  | succ n ih =>
    intro t clock
    cases hs : stepOutcome env d t with
    | breakRequested => simp [runFrom, hs]
    | failed r => simp [runFrom, hs]
    | recorded l =>
      have hc2 : clock ≤ clock + d.sweep.delay + env.stepDur t := by
        have := hdur t
        linarith
      obtain ⟨hch, hge⟩ := ih (t + 1) (clock + d.sweep.delay + env.stepDur t)
      constructor
      · simp only [runFrom, hs, List.map_cons]
        rw [List.chain'_cons']
        refine ⟨fun y hy => hge y (List.mem_of_mem_head? hy), hch⟩
      · simp only [runFrom, hs, List.map_cons]
        intro x hx
        rcases List.mem_cons.1 hx with h | h
        · rw [h]; exact hc2
        · exact le_trans hc2 (hge x h)

/-- C3: if a BreakCondition evaluates true at logical step `k` (all earlier
steps recording normally), the run stops immediately: the sealed Dataset
holds exactly the first `k` coordinates of the traversal order, no later
coordinate (in particular no subsequent outer index) is visited, and the
terminal status is `BrokenEarly`, not an error. -/
theorem c3_break_condition (env : StepEnv) (d : LoopDescriptor) (k : ℕ)
    (hk : k < totalSteps d)
    (hrec : ∀ t, t < k → (stepOutcome env d t).isRecorded = true)
    (hbrk : stepOutcome env d k = StepOutcome.breakRequested) :
    (run env d).rows.map Row.step = List.range k ∧
      (run env d).outcome = RunOutcome.brokenEarly := by
  have h := runFrom_break_at env d k (totalSteps d) 0 0 hk
    (fun u hu => by simpa using hrec u hu) (by simpa using hbrk)
  rw [List.range_eq_range']
  exact ⟨h.1, h.2⟩

/-- Concrete scenario for C3: a 1D loop of 5 points whose break predicate
first fires at step 2 records exactly steps 0 and 1 and ends `BrokenEarly`. -/
def c3Desc : LoopDescriptor :=
  LoopDescriptor.mk (SweepSpec.mk "volt" 0 1 5 0) none DirectionMode.oneWay
    [ActionItem.breakCond (fun t => t == 2), ActionItem.measurement "currentX"]
    "Device1" ""

/-- Concrete mock environment for C3: writes always succeed, every read
returns 0, every step takes no extra time. -/
def c3Env : StepEnv :=
  StepEnv.mk (fun _ => none) (fun _ _ => Except.ok 0) (fun _ => 0)

/-- C3 witness: on the concrete break-at-step-2 scenario the run records
exactly coordinates 0 and 1 and ends `BrokenEarly`. -/
theorem c3_break_condition_witness :
    (run c3Env c3Desc).rows.map Row.step = List.range 2 ∧
      (run c3Env c3Desc).outcome = RunOutcome.brokenEarly := by
  exact c3_break_condition c3Env c3Desc 2 (by decide) (by decide) (by decide)

/-- C4: if an InstrumentError is raised during the write or read of step `k`
(1-based; all earlier steps recording normally), it is not retried: the run
seals exactly the fully populated prefix of the first `k - 1` coordinates,
terminates with status `Aborted`, and the error reason is surfaced to the
caller inside the `Aborted` status. -/
theorem c4_instrument_error (env : StepEnv) (d : LoopDescriptor) (k : ℕ)
    (r : String) (_hk1 : 1 ≤ k) (hk : k - 1 < totalSteps d)
    (hrec : ∀ t, t < k - 1 → (stepOutcome env d t).isRecorded = true)
    (hfail : stepOutcome env d (k - 1) = StepOutcome.failed r) :
    (run env d).rows.map Row.step = List.range (k - 1) ∧
      (run env d).outcome = RunOutcome.aborted r := by
  have h := runFrom_failed_at env d r (k - 1) (totalSteps d) 0 0 hk
    (fun u hu => by simpa using hrec u hu) (by simpa using hfail)
  rw [List.range_eq_range']
  exact ⟨h.1, h.2⟩

/-- Concrete scenario for C4: a 1D loop of 5 points whose setpoint write at
step 3 (the 4th step) fails with reason "visa timeout". -/
def c4Desc : LoopDescriptor :=
  LoopDescriptor.mk (SweepSpec.mk "volt" 0 1 5 0) none DirectionMode.oneWay
    [ActionItem.measurement "currentX"] "Device1" ""

/-- Concrete mock environment for C4: the write at step 3 raises an
InstrumentError; all other operations succeed. -/
def c4Env : StepEnv :=
  StepEnv.mk (fun t => if t == 3 then some "visa timeout" else none)
    (fun _ _ => Except.ok 0) (fun _ => 0)

/-- C4 witness: with the write failing at the 4th step, the run seals exactly
coordinates 0, 1, 2 and ends `Aborted "visa timeout"`. -/
theorem c4_instrument_error_witness :
    (run c4Env c4Desc).rows.map Row.step = List.range 3 ∧
      (run c4Env c4Desc).outcome = RunOutcome.aborted "visa timeout" := by
  exact c4_instrument_error c4Env c4Desc 4 "visa timeout" (by decide) (by decide)
    (by decide) (by decide)

/-- C6: a run that visits all coordinates without a break or error ends
`Completed`, its Dataset is populated at exactly the coordinates of the full
traversal (every `(i, j)` with `i < outer_num`, `j < inner_num`, addressed as
step `i * inner_num + j`, for 2D; every `j < inner_num` for 1D), and the
implicit timer channel is non-decreasing along the traversal order. -/
theorem c6_full_run_completed (env : StepEnv) (d : LoopDescriptor)
    (hrec : ∀ t, t < totalSteps d → (stepOutcome env d t).isRecorded = true)
    (hdelay : 0 ≤ d.sweep.delay) (hdur : ∀ t, 0 ≤ env.stepDur t) :
    (run env d).outcome = RunOutcome.completed ∧
    (run env d).rows.map Row.step = List.range (totalSteps d) ∧
    List.Chain' (· ≤ ·) ((run env d).rows.map Row.timer) ∧
    (∀ st, d.stepAxis = some st → ∀ i j, i < st.num → j < d.sweep.num →
      i * d.sweep.num + j ∈ (run env d).rows.map Row.step) ∧
    (d.stepAxis = none → ∀ j, j < d.sweep.num →
      j ∈ (run env d).rows.map Row.step) := by
  have h := runFrom_all_recorded env d (totalSteps d) 0 0
    (fun u hu => by simpa using hrec u hu)
  have hsteps : (run env d).rows.map Row.step = List.range (totalSteps d) := by
    rw [List.range_eq_range']
    exact h.1
  refine ⟨h.2, hsteps, (runFrom_timer_mono env d hdelay hdur (totalSteps d) 0 0).1,
    ?_, ?_⟩
  · intro st hst i j hi hj
    rw [hsteps, List.mem_range]
    have h1 : i * d.sweep.num + j < (i + 1) * d.sweep.num := by
      have : (i + 1) * d.sweep.num = i * d.sweep.num + d.sweep.num := by ring
      omega
    have h2 : (i + 1) * d.sweep.num ≤ st.num * d.sweep.num :=
      Nat.mul_le_mul_right _ hi
    have : totalSteps d = st.num * d.sweep.num := by
      unfold totalSteps
      rw [hst]
    omega
  · intro hst j hj
    rw [hsteps, List.mem_range]
    have : totalSteps d = d.sweep.num := by
      unfold totalSteps
      rw [hst]
    omega

/-- Concrete scenario for C6: a 2D loop, outer 2 × inner 2, every step
recorded, zero settle delay and step duration. -/
def c6Desc : LoopDescriptor :=
  LoopDescriptor.mk (SweepSpec.mk "gate" 0 1 2 0)
    (some (SweepSpec.mk "bias" 0 1 2 1)) DirectionMode.oneWay
    [ActionItem.measurement "currentX"] "Device1" ""

/-- Concrete mock environment for C6: everything succeeds, each step takes
one second beyond the settle delay. -/
def c6Env : StepEnv :=
  StepEnv.mk (fun _ => none) (fun _ _ => Except.ok 0) (fun _ => 1)

/-- C6 witness: the 2×2 run completes, populates steps 0..3, has a
non-decreasing timer channel, and coordinate (1,1) = step 3 is populated. -/
theorem c6_full_run_completed_witness :
    (run c6Env c6Desc).outcome = RunOutcome.completed ∧
    (run c6Env c6Desc).rows.map Row.step = List.range 4 ∧
    List.Chain' (· ≤ ·) ((run c6Env c6Desc).rows.map Row.timer) ∧
    1 * 2 + 1 ∈ (run c6Env c6Desc).rows.map Row.step := by
  have h := c6_full_run_completed c6Env c6Desc (by decide) (by decide)
    (fun t => by simp [c6Env])
  exact ⟨h.1, h.2.1, h.2.2.1,
    h.2.2.2.1 (SweepSpec.mk "bias" 0 1 2 1) (by decide) 1 1 (by decide) (by decide)⟩

/-- Modelled from the spec: the Setpoint Sequencer's zigzag direction rule
(§4.1).  Missing source: the `loop2dUD` direction alternation.  At outer
index `i` the inner axis is swept start→stop when `i` is even and stop→start
when `i` is odd. -/
def zigzagInner (start stop : ℚ) (num : ℕ) (i : ℕ) : List ℚ :=
  if i % 2 = 0 then setpoints start stop num
  else (setpoints start stop num).reverse

/-- Modelled from the spec: the channel identity under which the half-sweep
at outer index `i` is recorded in zigzag mode (§4.1): forward halves carry
the suffix `_0`, reversed halves the suffix `_1`. -/
def udChannelName (base : String) (i : ℕ) : String :=
  if i % 2 = 0 then base ++ "_0" else base ++ "_1"

lemma append_suffix01_ne (base : String) : base ++ "_0" ≠ base ++ "_1" := by
  intro h
  have hd : base.data ++ "_0".data = base.data ++ "_1".data := by
    have h0 : (base ++ "_0").data = base.data ++ "_0".data := rfl
    have h1 : (base ++ "_1").data = base.data ++ "_1".data := rfl
    rw [← h0, ← h1, h]
  exact absurd (List.append_cancel_left hd) (by decide)

/-- C2: in zigzag (UD) 2D mode, the inner-axis sequence at outer index `i`
is the forward sequence start→stop when `i` is even and the reversed
sequence stop→start when `i` is odd, and the two directions are recorded
under distinct channel identities carrying the suffixes `_0` and `_1`,
never merged into one array. -/
theorem c2_zigzag_direction (start stop : ℚ) (num : ℕ) (base : String) (i : ℕ) :
    (i % 2 = 0 → zigzagInner start stop num i = setpoints start stop num ∧
      udChannelName base i = base ++ "_0") ∧
    (i % 2 = 1 → zigzagInner start stop num i = (setpoints start stop num).reverse ∧
      udChannelName base i = base ++ "_1") ∧
    udChannelName base i ≠ udChannelName base (i + 1) ∧
    base ++ "_0" ≠ base ++ "_1" := by
  refine ⟨?_, ?_, ?_, append_suffix01_ne base⟩
  · intro h
    constructor
    · unfold zigzagInner
      rw [if_pos h]
    · unfold udChannelName
      rw [if_pos h]
  · intro h
    constructor
    · unfold zigzagInner
      rw [if_neg (by omega)]
    · unfold udChannelName
      rw [if_neg (by omega)]
  · unfold udChannelName
    rcases Nat.even_or_odd i with he | ho
    · have h1 : i % 2 = 0 := Nat.even_iff.1 he
      have h2 : ¬ (i + 1) % 2 = 0 := by omega
      rw [if_pos h1, if_neg h2]
      exact append_suffix01_ne base
    · have h1 : ¬ i % 2 = 0 := by
        have := Nat.odd_iff.1 ho
        omega
      have h2 : (i + 1) % 2 = 0 := by
        have := Nat.odd_iff.1 ho
        omega
      rw [if_neg h1, if_pos h2]
      exact (append_suffix01_ne base).symm

/-- C2 witness: at outer indices 2 and 3 with the sweep `(0, 1, 3)` and base
channel `qdac_ch01_volt_set`: forward then reversed, suffixed `_0` and `_1`,
with the two identities distinct. -/
theorem c2_zigzag_direction_witness :
    (zigzagInner 0 1 3 2 = setpoints 0 1 3 ∧
      udChannelName "qdac_ch01_volt_set" 2 = "qdac_ch01_volt_set" ++ "_0") ∧
    (zigzagInner 0 1 3 3 = (setpoints 0 1 3).reverse ∧
      udChannelName "qdac_ch01_volt_set" 3 = "qdac_ch01_volt_set" ++ "_1") ∧
    udChannelName "qdac_ch01_volt_set" 2 ≠ udChannelName "qdac_ch01_volt_set" 3 := by
  have h2 := c2_zigzag_direction 0 1 3 "qdac_ch01_volt_set" 2
  have h3 := c2_zigzag_direction 0 1 3 "qdac_ch01_volt_set" 3
  exact ⟨h2.1 (by decide), h3.2.1 (by decide), h2.2.2.1⟩

/-- One channel of an allocated Dataset: its array identity and its
prospective shape (§3, Dataset). -/
structure Channel where
  name : String
  shape : List ℕ
deriving DecidableEq

/-- Modelled from the spec: the block of channels recorded for one sweep
direction (§4.1, §3): the inner setpoint channel plus one channel per
measured parameter plus the implicit `timer` channel, every one carrying the
same full prospective shape, with the direction suffix appended to each
identity (empty suffix in one-way mode). -/
def dirChannels (sweepName : String) (measured : List String) (shape : List ℕ)
    (suffix : String) : List Channel :=
  Channel.mk (sweepName ++ "_set" ++ suffix) shape ::
    (measured ++ ["timer"]).map (fun m => Channel.mk (m ++ suffix) shape)

/-- Modelled from the spec: the Dataset allocated at the `Idle→Armed`
transition (§4.4), with full prospective shape and all entries unwritten.
Missing source: `loop1d` / `loop2d` / `loop2dUD` dataset construction.  1D:
every channel has shape `(inner_num,)`.  2D one-way: the outer setpoint
channel has shape `(outer_num,)` and every other channel `(outer_num,
inner_num)`.  2D zigzag: both direction halves are allocated in full,
suffixed `_0` and `_1`, each with shape `(outer_num, inner_num)`. -/
def allocChannels (d : LoopDescriptor) : List Channel :=
  match d.stepAxis with
  | none => dirChannels d.sweep.paramName (measuredNames d) [d.sweep.num] ""
  | some st =>
    Channel.mk (st.paramName ++ "_set") [st.num] ::
      (match d.mode with
       | DirectionMode.oneWay =>
         dirChannels d.sweep.paramName (measuredNames d) [st.num, d.sweep.num] ""
       | DirectionMode.zigzag =>
         dirChannels d.sweep.paramName (measuredNames d) [st.num, d.sweep.num] "_0"
           ++ dirChannels d.sweep.paramName (measuredNames d) [st.num, d.sweep.num] "_1")

lemma mem_dirChannels_shape (sweepName : String) (measured : List String)
    (shape : List ℕ) (suffix : String) (c : Channel)
    (hc : c ∈ dirChannels sweepName measured shape suffix) : c.shape = shape := by
  unfold dirChannels at hc
  rcases List.mem_cons.1 hc with h | h
  · rw [h]
  · obtain ⟨m, _, rfl⟩ := List.mem_map.1 h
    rfl

lemma base_mem_dirChannels (sweepName : String) (measured : List String)
    (shape : List ℕ) (suffix : String) (base : String)
    (hb : base ∈ (sweepName ++ "_set") :: (measured ++ ["timer"])) :
    Channel.mk (base ++ suffix) shape ∈ dirChannels sweepName measured shape suffix := by
  unfold dirChannels
  rcases List.mem_cons.1 hb with h | h
  · rw [h]
    exact List.mem_cons_self _ _
  · exact List.mem_cons_of_mem _ (List.mem_map.2 ⟨base, h, rfl⟩)

/-- C9: in zigzag (UD) 2D mode every channel — the inner setpoint, each
measured parameter, and the implicit timer — is allocated twice, once per
direction with suffixes `_0` and `_1`, and each direction's array has the
full 2D shape `(step_num, num)` rather than only the even- or odd-indexed
outer rows. -/
theorem c9_ud_full_shapes (d : LoopDescriptor) (st : SweepSpec)
    (hst : d.stepAxis = some st) (hmode : d.mode = DirectionMode.zigzag) :
    (∀ c ∈ dirChannels d.sweep.paramName (measuredNames d) [st.num, d.sweep.num] "_0",
      c.shape = [st.num, d.sweep.num]) ∧
    (∀ c ∈ dirChannels d.sweep.paramName (measuredNames d) [st.num, d.sweep.num] "_1",
      c.shape = [st.num, d.sweep.num]) ∧
    (∀ base ∈ (d.sweep.paramName ++ "_set") :: (measuredNames d ++ ["timer"]),
      Channel.mk (base ++ "_0") [st.num, d.sweep.num] ∈ allocChannels d ∧
      Channel.mk (base ++ "_1") [st.num, d.sweep.num] ∈ allocChannels d ∧
      base ++ "_0" ≠ base ++ "_1") := by
  refine ⟨fun c hc => mem_dirChannels_shape _ _ _ _ c hc,
    fun c hc => mem_dirChannels_shape _ _ _ _ c hc, fun base hb => ?_⟩
  have h0 := base_mem_dirChannels d.sweep.paramName (measuredNames d)
    [st.num, d.sweep.num] "_0" base hb
  have h1 := base_mem_dirChannels d.sweep.paramName (measuredNames d)
    [st.num, d.sweep.num] "_1" base hb
  unfold allocChannels
  rw [hst, hmode]
  refine ⟨List.mem_cons_of_mem _ (List.mem_append_left _ h0),
    List.mem_cons_of_mem _ (List.mem_append_right _ h1),
    append_suffix01_ne base⟩

/-- Concrete descriptor for C9, matching the notebook's `loop2dUD` run:
inner sweep `qdac_ch01_volt` with 11 points, outer step `k2450_volt` with 11
points, five measured channels. -/
def c9Desc : LoopDescriptor :=
  LoopDescriptor.mk (SweepSpec.mk "qdac_ch01_volt" 0 1 11 0)
    (some (SweepSpec.mk "k2450_volt" 0 1 11 0)) DirectionMode.zigzag
    [ActionItem.measurement "currentX", ActionItem.measurement "currentY",
     ActionItem.measurement "voltageX", ActionItem.measurement "voltageY",
     ActionItem.measurement "resistance"] "Device1" ""

/-- C9 witness: in the notebook's 11×11 `loop2dUD` scenario both
`qdac_ch01_volt_set_0` and `qdac_ch01_volt_set_1` are allocated with the
full shape `(11, 11)`, as are `timer_0` and `timer_1`. -/
theorem c9_ud_full_shapes_witness :
    Channel.mk ("qdac_ch01_volt" ++ "_set" ++ "_0") [11, 11] ∈ allocChannels c9Desc ∧
    Channel.mk ("timer" ++ "_0") [11, 11] ∈ allocChannels c9Desc ∧
    Channel.mk ("timer" ++ "_1") [11, 11] ∈ allocChannels c9Desc := by
  have h := c9_ud_full_shapes c9Desc (SweepSpec.mk "k2450_volt" 0 1 11 0)
    (by decide) (by decide)
  have htimer := h.2.2 "timer" (by decide)
  refine ⟨?_, htimer.1, htimer.2.1⟩
  have hsw := h.2.2 ("qdac_ch01_volt" ++ "_set")
    (List.mem_cons_self _ _)
  have he : ("qdac_ch01_volt" ++ "_set") ++ "_0" = "qdac_ch01_volt" ++ "_set" ++ "_0" := rfl
  rw [← he]
  exact hsw.1

/-- Modelled from the spec: the start-value safety comparison (§4.2): the
sweep's `start` differs from the parameter's current live value beyond a
small relative tolerance `tol`. -/
def differsBeyond (target live tol : ℚ) : Prop :=
  tol * |live| < |target - live|

instance instDecidableDiffersBeyond (target live tol : ℚ) :
    Decidable (differsBeyond target live tol) :=
  inferInstanceAs (Decidable (tol * |live| < |target - live|))

/-- Modelled from the spec: the confirmation message shown for a mismatching
start value (§4.2; the notebook prints one "Are you sure?" line per
mismatching parameter). -/
def promptFor (s : SweepSpec) : String :=
  "Are you sure? Start value for " ++ s.paramName ++ " differs from its live value"

/-- Modelled from the spec: the pre-run start-value checks (§4.2, §4.4).
Missing source: the prompts issued by `loop1d` / `loop2d` before a run.  The
inner sweep parameter is compared to its live value, then (for 2D) the outer
step parameter to its own; each mismatching parameter contributes one
confirmation request. -/
def mismatchPrompts (d : LoopDescriptor) (liveSweep liveStep tol : ℚ) : List String :=
  (if differsBeyond d.sweep.start liveSweep tol then [promptFor d.sweep] else []) ++
    (match d.stepAxis with
     | none => []
     | some st => if differsBeyond st.start liveStep tol then [promptFor st] else [])

/-- Whether the optional outer step axis has fewer than one point. -/
def stepNumBad (d : LoopDescriptor) : Bool :=
  match d.stepAxis with
  | none => false
  | some st => decide (st.num < 1)

/-- Modelled from the spec: descriptor validation at the `Idle→Armed`
transition (§4.4, §7): `num_points < 1` on either axis or duplicate
measured-channel names make the descriptor malformed; `none` means valid. -/
def validate (d : LoopDescriptor) : Option String :=
  if d.sweep.num < 1 then some "num_points < 1"
  else if stepNumBad d then some "num_points < 1"
  else if (measuredNames d).Nodup then none
  else some "duplicate channel names"

/-- Modelled from the spec: the pre-flight failure taxonomy (§7):
`ValidationError` (malformed descriptor) and `SafetyAbort` (confirmation
policy declined). -/
inductive ArmError where
  | validationError (msg : String)
  | safetyAbort
deriving DecidableEq

/-- Modelled from the spec: the `Idle→Armed` transition (§4.4).  Missing
source: `loop1d` / `loop2d` / `loop2dUD` run preparation.  The descriptor is
validated, then the confirmation policy is consulted for every mismatching
start value; only if every prompt is confirmed is the Dataset allocated
(with full prospective shape).  On failure no Dataset exists at all. -/
def arm (d : LoopDescriptor) (liveSweep liveStep tol : ℚ)
    (confirm : String → Bool) : Except ArmError (List Channel) :=
  match validate d with
  | some msg => Except.error (ArmError.validationError msg)
  | none =>
    if (mismatchPrompts d liveSweep liveStep tol).all confirm then
      Except.ok (allocChannels d)
    else Except.error ArmError.safetyAbort

/-- C5: if a sweep's start value differs from the parameter's live value
beyond the tolerance and the confirmation policy declines, the run never
starts: arming yields `SafetyAbort` and no Dataset — not even a partial
one — is created. -/
theorem c5_safety_abort (d : LoopDescriptor) (liveSweep liveStep tol : ℚ)
    (confirm : String → Bool) (hvalid : validate d = none)
    (hdiff : differsBeyond d.sweep.start liveSweep tol)
    (hpolicy : confirm (promptFor d.sweep) = false) :
    arm d liveSweep liveStep tol confirm = Except.error ArmError.safetyAbort ∧
      ∀ cs, arm d liveSweep liveStep tol confirm ≠ Except.ok cs := by
  have hmem : promptFor d.sweep ∈ mismatchPrompts d liveSweep liveStep tol := by
    unfold mismatchPrompts
    rw [if_pos hdiff]
    exact List.mem_append_left _ (List.mem_singleton.2 rfl)
  have hall : (mismatchPrompts d liveSweep liveStep tol).all confirm = false := by
    rcases h : (mismatchPrompts d liveSweep liveStep tol).all confirm with _ | _
    · rfl
    · have := List.all_eq_true.1 h _ hmem
      rw [hpolicy] at this
      exact absurd this (by decide)
  have harm : arm d liveSweep liveStep tol confirm = Except.error ArmError.safetyAbort := by
    unfold arm
    rw [hvalid]
    simp [hall]
  exact ⟨harm, fun cs h => by rw [harm] at h; exact Except.noConfusion h⟩

/-- Concrete descriptor for C5: a well-formed 1D loop whose sweep starts at
0 while the parameter's live value is 1. -/
def c5Desc : LoopDescriptor :=
  LoopDescriptor.mk (SweepSpec.mk "volt" 0 1 101 0) none DirectionMode.oneWay
    [ActionItem.measurement "currentX"] "Device1" ""

/-- C5 witness: with live value 1, tolerance 0 and an always-declining
policy, arming the concrete descriptor yields `SafetyAbort` and no ok
result. -/
theorem c5_safety_abort_witness :
    arm c5Desc 1 0 0 (fun _ => false) = Except.error ArmError.safetyAbort ∧
      ∀ cs, arm c5Desc 1 0 0 (fun _ => false) ≠ Except.ok cs := by
  exact c5_safety_abort c5Desc 1 0 0 (fun _ => false) (by decide)
    (by simp [differsBeyond, c5Desc]) rfl

/-- C7: arming a malformed LoopDescriptor — `num_points < 1` on either axis
or duplicate measured-channel names — raises `ValidationError`; the run
never starts and no Dataset is allocated. -/
theorem c7_validation_error (d : LoopDescriptor) (liveSweep liveStep tol : ℚ)
    (confirm : String → Bool)
    (hbad : d.sweep.num < 1 ∨ (∃ st, d.stepAxis = some st ∧ st.num < 1) ∨
      ¬ (measuredNames d).Nodup) :
    ∃ msg, arm d liveSweep liveStep tol confirm
        = Except.error (ArmError.validationError msg) ∧
      ∀ cs, arm d liveSweep liveStep tol confirm ≠ Except.ok cs := by
  have hsome : ∃ msg, validate d = some msg := by
    unfold validate
    by_cases h1 : d.sweep.num < 1
    · exact ⟨_, by rw [if_pos h1]⟩
    · rcases hbad with hb | ⟨st, hst, hnum⟩ | hb
      · exact absurd hb h1
      · have h2 : stepNumBad d = true := by
          unfold stepNumBad
          rw [hst]
          exact decide_eq_true hnum
        exact ⟨_, by rw [if_neg h1, if_pos h2]⟩
      · by_cases h2 : stepNumBad d = true
        · exact ⟨_, by rw [if_neg h1, if_pos h2]⟩
        · exact ⟨_, by rw [if_neg h1, if_neg h2, if_neg hb]⟩
  obtain ⟨msg, hmsg⟩ := hsome
  have harm : arm d liveSweep liveStep tol confirm
      = Except.error (ArmError.validationError msg) := by
    unfold arm
    rw [hmsg]
  exact ⟨msg, harm, fun cs h => by rw [harm] at h; exact Except.noConfusion h⟩

/-- Concrete descriptor for C7: a 1D loop with `num_points = 0` and a
duplicated measured channel. -/
def c7Desc : LoopDescriptor :=
  LoopDescriptor.mk (SweepSpec.mk "volt" 0 1 0 0) none DirectionMode.oneWay
    [ActionItem.measurement "currentX", ActionItem.measurement "currentX"]
    "Device1" ""

/-- C7 witness: arming the malformed concrete descriptor yields a
`ValidationError` and no Dataset. -/
theorem c7_validation_error_witness :
    ∃ msg, arm c7Desc 0 0 0 (fun _ => true)
        = Except.error (ArmError.validationError msg) ∧
      ∀ cs, arm c7Desc 0 0 0 (fun _ => true) ≠ Except.ok cs := by
  exact c7_validation_error c7Desc 0 0 0 (fun _ => true) (Or.inl (by decide))

/-- C10: for a 2D loop the pre-run start-value safety check covers both
axes: the inner sweep parameter and the outer step parameter are each
compared to their own live values, each mismatching parameter contributes
its own confirmation request, and when both mismatch exactly two separate
prompts are issued, inner axis first. -/
theorem c10_two_axis_safety (d : LoopDescriptor) (st : SweepSpec)
    (hst : d.stepAxis = some st) (liveSweep liveStep tol : ℚ) :
    (differsBeyond d.sweep.start liveSweep tol →
      promptFor d.sweep ∈ mismatchPrompts d liveSweep liveStep tol) ∧
    (differsBeyond st.start liveStep tol →
      promptFor st ∈ mismatchPrompts d liveSweep liveStep tol) ∧
    (differsBeyond d.sweep.start liveSweep tol →
      differsBeyond st.start liveStep tol →
      mismatchPrompts d liveSweep liveStep tol
        = [promptFor d.sweep, promptFor st]) := by
  refine ⟨?_, ?_, ?_⟩
  · intro h1
    unfold mismatchPrompts
    rw [if_pos h1]
    exact List.mem_append_left _ (List.mem_singleton.2 rfl)
  · intro h2
    simp only [mismatchPrompts, hst]
    rw [if_pos h2]
    exact List.mem_append_right _ (List.mem_singleton.2 rfl)
  · intro h1 h2
    simp only [mismatchPrompts, hst]
    rw [if_pos h1, if_pos h2]
    rfl

/-- Concrete descriptor for C10, matching the notebook's `loop2d` run: both
axes start at 0 while both parameters sit at 1. -/
def c10Desc : LoopDescriptor :=
  LoopDescriptor.mk (SweepSpec.mk "qdac_ch01_volt" 0 1 11 0)
    (some (SweepSpec.mk "k2450_volt" 0 1 11 0)) DirectionMode.oneWay
    [ActionItem.measurement "currentX"] "Device1" ""

/-- C10 witness: with both live values at 1 and tolerance 0, the 2D pre-run
check issues exactly the two prompts, inner sweep axis first. -/
theorem c10_two_axis_safety_witness :
    promptFor c10Desc.sweep ∈ mismatchPrompts c10Desc 1 1 0 ∧
    promptFor (SweepSpec.mk "k2450_volt" 0 1 11 0) ∈ mismatchPrompts c10Desc 1 1 0 ∧
    mismatchPrompts c10Desc 1 1 0
      = [promptFor c10Desc.sweep, promptFor (SweepSpec.mk "k2450_volt" 0 1 11 0)] := by
  have h := c10_two_axis_safety c10Desc (SweepSpec.mk "k2450_volt" 0 1 11 0)
    (by decide) 1 1 0
  have h1 : differsBeyond c10Desc.sweep.start 1 0 := by
    simp [differsBeyond, c10Desc]
  have h2 : differsBeyond (SweepSpec.mk "k2450_volt" 0 1 11 0).start 1 0 := by
    simp [differsBeyond]
  exact ⟨h.1 h1, h.2.1 h2, h.2.2 h1 h2⟩

/-- Modelled from the spec: a base Parameter's identity and current raw
value (§3, Parameter; §6, Parameter collaborator). -/
structure BaseParam where
  name : String
  label : String
  unit : String
  value : ℚ
deriving DecidableEq

/-- Modelled from the spec: `qc.ScaledParameter` (§4.2).  Missing source:
the `qcodespp` ScaledParameter class.  It wraps a base parameter with an
affine scaling transform (`gain`, `offset`) and carries its own name, label
and unit, supplied at construction independently of the base's. -/
structure ScaledParameter where
  base : BaseParam
  gain : ℚ
  offset : ℚ
  name : String
  label : String
  unit : String
deriving DecidableEq

/-- Modelled from the spec: reading a scaled parameter reports
`gain * value_raw + offset` (§4.2). -/
def ScaledParameter.read (p : ScaledParameter) : ℚ :=
  p.gain * p.base.value + p.offset

/-- Modelled from the spec: writing a scaled parameter applies the inverse
affine transform to the base parameter (§4.2). -/
def ScaledParameter.write (p : ScaledParameter) (v : ℚ) : ScaledParameter :=
  { p with base := { p.base with value := (v - p.offset) / p.gain } }

/-- C8: a scaled parameter with nonzero gain reads
`gain * raw_value + offset`, writes by the inverse affine transform (so a
write of `v` followed by a read with unchanged base returns `v` exactly),
and its name, label and unit are those supplied at construction,
independent of the base parameter's identity. -/
theorem c8_scaled_parameter (b b2 : BaseParam) (g o v : ℚ)
    (n l u : String) (hg : g ≠ 0) :
    (ScaledParameter.mk b g o n l u).read = g * b.value + o ∧
    ((ScaledParameter.mk b g o n l u).write v).base.value = (v - o) / g ∧
    ((ScaledParameter.mk b g o n l u).write v).read = v ∧
    (ScaledParameter.mk b g o n l u).name = n ∧
    (ScaledParameter.mk b g o n l u).label = l ∧
    (ScaledParameter.mk b g o n l u).unit = u ∧
    (ScaledParameter.mk b g o n l u).name = (ScaledParameter.mk b2 g o n l u).name ∧
    (ScaledParameter.mk b g o n l u).unit = (ScaledParameter.mk b2 g o n l u).unit := by
  refine ⟨rfl, rfl, ?_, rfl, rfl, rfl, rfl, rfl⟩
  unfold ScaledParameter.write ScaledParameter.read
  field_simp

/-- C8 witness: the notebook's `currentX`-style parameter with gain
`1/1000000`, offset 0, wrapping a base reading 3: write-then-read returns
the written value, and identity fields are the constructed ones. -/
theorem c8_scaled_parameter_witness :
    (ScaledParameter.mk (BaseParam.mk "demod0_X" "X" "V" 3) (1/1000000) 0
        "currentX" "Current" "A").read = (1/1000000) * 3 + 0 ∧
    ((ScaledParameter.mk (BaseParam.mk "demod0_X" "X" "V" 3) (1/1000000) 0
        "currentX" "Current" "A").write 5).read = 5 ∧
    (ScaledParameter.mk (BaseParam.mk "demod0_X" "X" "V" 3) (1/1000000) 0
        "currentX" "Current" "A").name = "currentX" := by
  have h := c8_scaled_parameter (BaseParam.mk "demod0_X" "X" "V" 3)
    (BaseParam.mk "other" "O" "W" 7) (1/1000000) 0 5 "currentX" "Current" "A"
    (by simp)
  exact ⟨h.1, h.2.2.1, h.2.2.2.1⟩
